import Mathlib

/-!
Verification development for the `ai-assistant-sms` repository.

The repository is a small conversational scheduling assistant.  The central
piece of logic is the per-turn session handler `handleUserMessage` in
`src/backend/serverv3.js` (lines 125-264): a linear form-filling state
machine over stages
`start / awaiting_date / awaiting_time / awaiting_duration / awaiting_email /
creating / completed`, with regex-based field extraction.

This file gives a shallow embedding of that handler and of the helper
`normalizePhone` (from `src/unnamed/part_001` lines 57-65 and
`src/unnamed/part_003` lines 296-302), and proves the testable properties
of the specification against them.

Modelling conventions:
  * JavaScript strings are Lean `String`s, regex matching is implemented
    directly (leftmost match with the exact backtracking behaviour of the
    concrete patterns used by the source).
  * JS `\s` and `String.trim` are modelled with `Char.isWhitespace`
    (space, tab, CR, LF); all inputs of interest are ASCII.
  * JS truthiness of the session fields is modelled explicitly:
    a string field is truthy iff present and nonempty, the numeric
    `duration` field is truthy iff present and nonzero.
  * The external Google-calendar calls (`isSlotFree` / `createEvent`), the
    only awaited operations inside the `creating` try-block, are modelled by
    an oracle `CalendarOutcome` describing how that block's external calls
    behave on this turn (throw during the free/busy query, report busy,
    throw during event creation, or succeed returning an event whose
    optional `hangoutLink` / first entry-point URI are given).
  * The token file on disk is modelled by a boolean `tokenPresent`
    (`loadToken()` returns `null` iff the file is absent).
-/

namespace SmsBot

/-- The conversation stages of `serverv3.js` (`session.stage` string tag). -/
inductive Stage where
  | start
  | awaiting_date
  | awaiting_time
  | awaiting_duration
  | awaiting_email
  | creating
  | completed
deriving DecidableEq, Repr

/-- The booking fields of `session.data` in `serverv3.js`.  Each field is
absent (`none`, JS `undefined`) until its regex first matches. -/
structure SessionData where
  date : Option String
  time : Option String
  duration : Option Nat
  email : Option String
deriving DecidableEq, Repr

/-- A session record `{ stage, data }` as stored in the `sessions` map. -/
structure Session where
  stage : Stage
  data : SessionData
deriving DecidableEq, Repr

/-- Oracle for the external calendar calls made inside the `creating`
try-block of `serverv3.js` (lines 221-246): the `isSlotFree` query may
throw, may report the slot busy; if free, `createEvent` may throw or
succeed with an event carrying an optional `hangoutLink` and an optional
first conference entry-point URI. -/
inductive CalendarOutcome where
  | queryThrows
  | busy
  | createThrows
  | created (hangoutLink : Option String) (entryUri : Option String)
deriving DecidableEq, Repr

/-! ### JS string helpers -/

/-- JS truthiness of an optional string field (`undefined` and `""` are
falsy). -/
def truthyStr : Option String → Bool
  | none => false
  | some s => decide (s ≠ "")

/-- JS truthiness of the optional numeric `duration` field (`undefined`
and `0` are falsy). -/
def truthyNat : Option Nat → Bool
  | none => false
  | some n => decide (n ≠ 0)

/-- JS `a || b` for an optional string `a` (`undefined`/`""` falsy). -/
def jsOrStr (a : Option String) (b : String) : String :=
  match a with
  | some s => if s = "" then b else s
  | none => b

/-- JS `String.prototype.trim` (ASCII whitespace model). -/
def jsTrim (s : String) : String :=
  String.mk (((s.toList.dropWhile Char.isWhitespace).reverse.dropWhile
    Char.isWhitespace).reverse)

/-- JS `String.prototype.toLowerCase` (ASCII model). -/
def lowerStr (s : String) : String :=
  String.mk (s.toList.map Char.toLower)

/-- Substring test, used for `textLower.includes("termin")`. -/
def containsSub (needle : List Char) : List Char → Bool
  | [] => needle.isEmpty
  | c :: rest => needle.isPrefixOf (c :: rest) || containsSub needle rest

/-- JS `parseInt` on the all-digit strings produced by a `/\d+/` match. -/
def jsParseInt (s : String) : Nat :=
  s.toList.foldl (fun a c => a * 10 + (c.toNat - 48)) 0

/-! ### Regex matchers

Each JS regex used by the handler is implemented as a `matchAt` function
(attempt a match anchored at the head of the list, exactly following the
greedy/backtracking behaviour of the pattern) plus the generic leftmost
scan `scanFirst` (a JS regex match tries successive start positions). -/

/-- Exactly `n` digits; returns the matched digits and the rest. -/
def matchDigitsN : Nat → List Char → Option (List Char × List Char)
  | 0, cs => some ([], cs)
  | _ + 1, [] => none
  | n + 1, c :: cs =>
    if c.isDigit then
      match matchDigitsN n cs with
      | some (m, r) => some (c :: m, r)
      | none => none
    else none

/-- A literal `'.'`; returns the rest. -/
def dotThen : List Char → Option (List Char)
  | '.' :: r => some r
  | _ => none

/-- One alternative of the date pattern `/\d{1,2}\.\d{1,2}\.\d{4}/`:
`dn` day digits, a dot, `mn` month digits, a dot, four year digits. -/
def dateTry (dn mn : Nat) (cs : List Char) : Option (List Char) := do
  let (d, r1) ← matchDigitsN dn cs
  let r2 ← dotThen r1
  let (m, r3) ← matchDigitsN mn r2
  let r4 ← dotThen r3
  let (y, _) ← matchDigitsN 4 r4
  pure (d ++ '.' :: m ++ '.' :: y)

/-- Left-biased choice between match attempts (regex alternation /
backtracking preference). -/
def firstSome (a b : Option (List Char)) : Option (List Char) :=
  match a with
  | some r => some r
  | none => b

/-- Pattern `/\d{1,2}\.\d{1,2}\.\d{4}/` anchored at the head: greedy `\d{1,2}`
prefers two digits, backtracking to one. -/
def dateAt (cs : List Char) : Option (List Char) :=
  firstSome (dateTry 2 2 cs)
    (firstSome (dateTry 2 1 cs) (firstSome (dateTry 1 2 cs) (dateTry 1 1 cs)))

/-- The optional `(:\d{2})?` group after the digits `ds` of a time match:
append `:NN` when it is present, else just the digits. -/
def timeTail (ds : List Char) (r : List Char) : List Char :=
  match r with
  | ':' :: a :: b :: _ =>
    if a.isDigit && b.isDigit then ds ++ [':', a, b] else ds
  | _ => ds

/-- Pattern `/\d{1,2}(:\d{2})?/` anchored at the head: one or two digits
(greedy), then optionally a colon and exactly two digits. -/
def timeAt (cs : List Char) : Option (List Char) :=
  match cs with
  | [] => none
  | c :: rest =>
    if c.isDigit then
      match rest with
      | c2 :: r2 =>
        if c2.isDigit then some (timeTail [c, c2] r2)
        else some (timeTail [c] rest)
      | [] => some (timeTail [c] [])
    else none

/-- Pattern `/\d+/` anchored at the head: a maximal digit run. -/
def durAt : List Char → Option (List Char)
  | [] => none
  | c :: cs => if c.isDigit then some (c :: cs.takeWhile Char.isDigit) else none

/-- Character class `[^\s@]` of the email pattern. -/
def isEmailChar (c : Char) : Bool := !c.isWhitespace && !(c == '@')

/-- Is there a `'.'` in the list that is not its last element?  Used on the
tail of the post-`@` run: the pattern `[^\s@]+\.[^\s@]+` matches the run
iff some interior `'.'` leaves a nonempty part on each side. -/
def hasDotInterior : List Char → Bool
  | [] => false
  | [_] => false
  | c :: rest => (c == '.') || hasDotInterior rest

/-- Pattern `/[^\s@]+@[^\s@]+\.[^\s@]+/` anchored at the head.  The local part is
the maximal `[^\s@]` run (it cannot contain `@`, so backtracking cannot
shorten it), which must be nonempty and followed by `@`; the rest matches
iff the maximal `[^\s@]` run after the `@` contains a dot that is neither
its first nor its last character, and the greedy tail then consumes the
whole run. -/
def emailAt (cs : List Char) : Option (List Char) :=
  let a := cs.takeWhile isEmailChar
  match a with
  | [] => none
  | _ :: _ =>
    match cs.drop a.length with
    | '@' :: r2 =>
      let run := r2.takeWhile isEmailChar
      match run with
      | [] => none
      | _ :: rrest =>
        if hasDotInterior rrest then some (a ++ '@' :: run) else none
    | _ => none

/-- Leftmost match: try the anchored matcher at each successive start
position, as a JS regex engine does. -/
def scanFirst (f : List Char → Option (List Char)) : List Char → Option (List Char)
  | [] => none
  | c :: cs =>
    match f (c :: cs) with
    | some r => some r
    | none => scanFirst f cs

/-- First match of `/\d{1,2}\.\d{1,2}\.\d{4}/` in a string. -/
def firstDateSub (s : String) : Option String :=
  (scanFirst dateAt s.toList).map String.mk

/-- First match of `/\d{1,2}(:\d{2})?/` in a string. -/
def firstTimeSub (s : String) : Option String :=
  (scanFirst timeAt s.toList).map String.mk

/-- First match of `/\d+/` in a string. -/
def firstNumSub (s : String) : Option String :=
  (scanFirst durAt s.toList).map String.mk

/-- First match of `/[^\s@]+@[^\s@]+\.[^\s@]+/` in a string. -/
def firstEmailSub (s : String) : Option String :=
  (scanFirst emailAt s.toList).map String.mk

/-! ### Filler-word stripping

`serverv3.js` line 136:
`(message || "").replace(/\b(um|gegen|Uhr)\b/gi, "").trim()`. -/

/-- JS word character `[A-Za-z0-9_]` (for `\b`). -/
def isWordChar (c : Char) : Bool := c.isAlphanum || c == '_'

/-- Case-insensitive literal prefix match; `tok` is given lowercase.
Returns the rest after the token. -/
def stripTokenCI : List Char → List Char → Option (List Char)
  | [], cs => some cs
  | _ :: _, [] => none
  | t :: ts, c :: cs => if c.toLower == t then stripTokenCI ts cs else none

/-- Try to match one of the filler alternatives `um|gegen|Uhr`
(case-insensitive) at the head, requiring a word boundary after it (all
three tokens end in a word character, so the boundary holds iff the next
character is absent or not a word character).  Returns the rest. -/
def fillerAt (cs : List Char) : Option (List Char) :=
  let tryTok (tok : List Char) : Option (List Char) :=
    match stripTokenCI tok cs with
    | some rest =>
      match rest with
      | [] => some rest
      | c :: _ => if isWordChar c then none else some rest
    | none => none
  match tryTok ['u', 'm'] with
  | some r => some r
  | none =>
    match tryTok ['g', 'e', 'g', 'e', 'n'] with
    | some r => some r
    | none => tryTok ['u', 'h', 'r']

/-- Global replacement of `/\b(um|gegen|Uhr)\b/gi` by the empty string.
`prevWord` records whether the previous character of the original string
is a word character (all three tokens start with a word character, so the
leading boundary holds iff `prevWord` is false).  The fuel argument only
serves structural recursion; each step consumes at least one character,
so any fuel of at least the list length computes the result. -/
def stripFillersF : Nat → Bool → List Char → List Char
  | 0, _, cs => cs
  | _ + 1, _, [] => []
  | fuel + 1, prevWord, c :: cs =>
    if prevWord then c :: stripFillersF fuel (isWordChar c) cs
    else
      match fillerAt (c :: cs) with
      | some rest => stripFillersF fuel true rest
      | none => c :: stripFillersF fuel (isWordChar c) cs

/-- From `serverv3.js` line 136: the cleaned message used for all field
extraction. -/
def cleanedText (message : String) : String :=
  jsTrim (String.mk (stripFillersF (message.toList.length + 1) false message.toList))

/-! ### Reply strings of `serverv3.js` -/

def msgNotConnected : String := "❌ Bot ist nicht verbunden. Bitte Google Setup durchführen."

def msgAskDate : String := "Klar! Für wann möchten Sie den Termin vereinbaren? (TT.MM.JJJJ)"

def msgAskDateRetry : String := "Für wann möchten Sie den Termin vereinbaren? (TT.MM.JJJJ)"

def msgAskDuration : String := "Perfekt! Wie lange soll das Meeting dauern? (z. B. 30 oder 60 Minuten)"

def msgAskTime (d : String) : String :=
  "Super! Zu welcher Uhrzeit am " ++ d ++ " würde es Ihnen passen?"

def msgTimeRetry : String := "Bitte geben Sie eine Uhrzeit an, z. B. 10:00 Uhr."

def msgAskEmail : String :=
  "Alles klar. Bitte geben Sie Ihre E-Mail-Adresse an, damit ich den Termin eintragen kann."

def msgDurationRetry : String := "Wie lange soll der Termin dauern (in Minuten)?"

def msgChecking : String := "Einen Moment, ich prüfe, ob der Termin verfügbar ist …"

def msgEmailRetry : String := "Bitte geben Sie eine gültige E-Mail-Adresse an."

def msgMissingInfo : String :=
  "❌ Es fehlen noch Informationen. Bitte geben Sie Datum, Uhrzeit, Dauer und E-Mail an."

def msgBusy : String :=
  "⚠️ Dieser Zeitraum ist leider schon belegt. Bitte schlagen Sie eine andere Zeit vor."

def msgGenericError : String := "❌ Es gab einen Fehler bei der Verarbeitung Ihrer Anfrage."

def msgAlreadyBooked : String :=
  "✅ Der Termin wurde bereits vereinbart. Möchten Sie noch etwas besprechen?"

/-- The confirmation reply of `serverv3.js` line 239 (template literal). -/
def msgSuccess (d t e link : String) : String :=
  "✅ Termin am " ++ d ++ " um " ++ t ++ " wurde erfolgreich eingetragen.\n📧 Einladung an "
    ++ e ++ ".\n🔗 Google Meet Link: " ++ link

/-! ### The per-turn handler -/

/-- The first `if / else if` chain of `handleUserMessage`
(`serverv3.js` lines 144-209): the stage branches for
`start`/`awaiting_date` (combined), `awaiting_time`, `awaiting_duration`
and `awaiting_email`.  Sessions in `creating` or `completed` fall through
with the initial empty reply. -/
def phase1 (sess : Session) (cleaned lower : String) : Session × String :=
  match sess.stage with
  | .start | .awaiting_date =>
    if containsSub ['t', 'e', 'r', 'm', 'i', 'n'] lower.toList
        && (sess.stage == Stage.start) then
      ({ sess with stage := .awaiting_date }, msgAskDate)
    else
      let d : Option String :=
        match firstDateSub cleaned with
        | some x => some x
        | none => sess.data.date
      let t : Option String :=
        match firstTimeSub cleaned with
        | some x => some x
        | none => sess.data.time
      let data := { sess.data with date := d, time := t }
      if truthyStr d && truthyStr t then
        ({ stage := .awaiting_duration, data := data }, msgAskDuration)
      else if truthyStr d = false then
        ({ stage := .awaiting_date, data := data }, msgAskDateRetry)
      else
        ({ stage := .awaiting_time, data := data }, msgAskTime (d.getD ""))
  | .awaiting_time =>
    match firstTimeSub cleaned with
    | some t =>
      ({ stage := .awaiting_duration, data := { sess.data with time := some t } },
        msgAskDuration)
    | none => (sess, msgTimeRetry)
  | .awaiting_duration =>
    match firstNumSub cleaned with
    | some nstr =>
      ({ stage := .awaiting_email,
         data := { sess.data with duration := some (jsParseInt nstr) } }, msgAskEmail)
    | none => (sess, msgDurationRetry)
  | .awaiting_email =>
    match firstEmailSub cleaned with
    | some e =>
      ({ stage := .creating, data := { sess.data with email := some e } }, msgChecking)
    | none => (sess, msgEmailRetry)
  | .creating => (sess, "")
  | .completed => (sess, "")

/-- The second `if / else if` of `handleUserMessage`
(`serverv3.js` lines 214-255): the `creating` block (missing-field check,
then the calendar try/catch) and the `completed` branch.  Runs on the
session/reply produced by `phase1`, exactly as in the source where the
`creating` check is a fresh `if` after the first chain. -/
def phase2 (cal : CalendarOutcome) (sr : Session × String) : Session × String :=
  if sr.1.stage == Stage.creating then
    if (truthyStr sr.1.data.date && truthyStr sr.1.data.time
        && truthyNat sr.1.data.duration && truthyStr sr.1.data.email) = false then
      ({ sr.1 with stage :=
          if truthyStr sr.1.data.date = false then .awaiting_date
          else if truthyStr sr.1.data.time = false then .awaiting_time
          else if truthyNat sr.1.data.duration = false then .awaiting_duration
          else .awaiting_email }, msgMissingInfo)
    else
      match cal with
      | .queryThrows => ({ sr.1 with stage := .awaiting_email }, msgGenericError)
      | .busy => ({ sr.1 with stage := .awaiting_time }, msgBusy)
      | .createThrows => ({ sr.1 with stage := .awaiting_email }, msgGenericError)
      | .created h u =>
        ({ sr.1 with stage := .completed },
          msgSuccess (sr.1.data.date.getD "") (sr.1.data.time.getD "")
            (sr.1.data.email.getD "") (jsOrStr h (jsOrStr u "kein Link verfügbar")))
  else if sr.1.stage == Stage.completed then (sr.1, msgAlreadyBooked)
  else sr

/-- One turn of `handleUserMessage(userId, message)` from
`src/backend/serverv3.js` lines 125-264, for a given session.

The token guard (`if (!tokens) return ...`, lines 126-127) precedes
everything; otherwise the message is cleaned (line 136), lowercased
(line 137), and run through the two stage chains.  The final
`sessions.set` stores the returned session; the outer catch is
unreachable because the only fallible operations (the calendar calls)
sit inside the inner try of the `creating` block, whose behaviour the
`cal` oracle describes. -/
def handleUserMessage (tokenPresent : Bool) (cal : CalendarOutcome)
    (sess : Session) (message : String) : Session × String :=
  if tokenPresent then
    let cleaned := cleanedText message
    phase2 cal (phase1 sess cleaned (lowerStr cleaned))
  else (sess, msgNotConnected)

/-- The function `normalizePhone` from `src/unnamed/part_001` lines 57-65 (identical in
`src/unnamed/part_003` lines 296-302): `if (!phone) return phone;` then
trim; a trimmed string starting with `+` is returned as is; otherwise all
non-digit characters are removed and the configured default country code
is prepended. -/
def normalizePhone (defaultCountry : String) (phone : String) : String :=
  if phone = "" then phone
  else
    let p := jsTrim phone
    if p.toList.head? = some '+' then p
    else defaultCountry ++ String.mk (p.toList.filter Char.isDigit)

/-! ### Lemmas about the matchers -/

theorem matchDigitsN_head_digit {n : Nat} {c : Char} {cs : List Char}
    {p : List Char × List Char} (h : matchDigitsN (n + 1) (c :: cs) = some p) :
    c.isDigit = true := by
  by_cases hc : c.isDigit = true
  · exact hc
  · simp [matchDigitsN, hc] at h

theorem dateTry_head_digit {dn mn : Nat} {c : Char} {cs r : List Char}
    (h : dateTry (dn + 1) mn (c :: cs) = some r) : c.isDigit = true := by
  by_cases hc : c.isDigit = true
  · exact hc
  · have hm : matchDigitsN (dn + 1) (c :: cs) = none := by simp [matchDigitsN, hc]
    simp [dateTry, hm] at h

theorem dateTry_ne_nil {dn mn : Nat} {cs r : List Char}
    (h : dateTry dn mn cs = some r) : r ≠ [] := by
  simp only [dateTry, bind, Option.bind_eq_some] at h
  obtain ⟨⟨d, r1⟩, -, ⟨r2, -, ⟨⟨m, r3⟩, -, ⟨r4, -, ⟨⟨y, r5⟩, -, h⟩⟩⟩⟩⟩ := h
  simp only [pure, Option.some_inj] at h
  subst h
  simp

theorem firstSome_eq_some {a b : Option (List Char)} {r : List Char}
    (h : firstSome a b = some r) : a = some r ∨ b = some r := by
  cases a with
  | some x => exact Or.inl h
  | none => exact Or.inr h

theorem dateAt_cases {cs r : List Char} (h : dateAt cs = some r) :
    dateTry 2 2 cs = some r ∨ dateTry 2 1 cs = some r ∨
      dateTry 1 2 cs = some r ∨ dateTry 1 1 cs = some r := by
  rcases firstSome_eq_some h with h1 | h1
  · exact Or.inl h1
  rcases firstSome_eq_some h1 with h2 | h2
  · exact Or.inr (Or.inl h2)
  rcases firstSome_eq_some h2 with h3 | h3
  · exact Or.inr (Or.inr (Or.inl h3))
  · exact Or.inr (Or.inr (Or.inr h3))

theorem dateAt_head_digit {c : Char} {cs r : List Char}
    (h : dateAt (c :: cs) = some r) : c.isDigit = true := by
  rcases dateAt_cases h with h1 | h1 | h1 | h1 <;> exact dateTry_head_digit h1

theorem dateAt_ne_nil : ∀ (l r : List Char), dateAt l = some r → r ≠ [] := by
  intro l r h
  rcases dateAt_cases h with h1 | h1 | h1 | h1 <;> exact dateTry_ne_nil h1

theorem timeTail_ne_nil {ds : List Char} (h : ds ≠ []) (r : List Char) :
    timeTail ds r ≠ [] := by
  unfold timeTail
  split
  · split
    · simp [h]
    · exact h
  · exact h

theorem timeAt_ne_nil : ∀ (l r : List Char), timeAt l = some r → r ≠ [] := by
  intro l r h
  match l with
  | [] => simp [timeAt] at h
  | c :: rest =>
    by_cases hc : c.isDigit = true
    · match rest with
      | [] =>
        simp [timeAt, hc] at h
        exact h ▸ timeTail_ne_nil (by simp) _
      | c2 :: r2 =>
        by_cases h2 : c2.isDigit = true
        · simp [timeAt, hc, h2] at h
          exact h ▸ timeTail_ne_nil (by simp) _
        · simp [timeAt, hc, h2] at h
          exact h ▸ timeTail_ne_nil (by simp) _
    · simp [timeAt, hc] at h

theorem timeAt_isSome_of_digit {c : Char} (rest : List Char)
    (hc : c.isDigit = true) : ∃ r, timeAt (c :: rest) = some r := by
  match rest with
  | [] => exact ⟨timeTail [c] [], by simp [timeAt, hc]⟩
  | c2 :: r2 =>
    by_cases h2 : c2.isDigit = true
    · exact ⟨timeTail [c, c2] r2, by simp [timeAt, hc, h2]⟩
    · exact ⟨timeTail [c] (c2 :: r2), by simp [timeAt, hc, h2]⟩

theorem scanFirst_ne_nil {f : List Char → Option (List Char)}
    (hf : ∀ l r, f l = some r → r ≠ []) :
    ∀ {l r : List Char}, scanFirst f l = some r → r ≠ [] := by
  intro l
  induction l with
  | nil => intro r h; simp [scanFirst] at h
  | cons c cs ih =>
    intro r h
    cases hf0 : f (c :: cs) with
    | some r0 =>
      simp only [scanFirst, hf0, Option.some_inj] at h
      exact h ▸ hf _ _ hf0
    | none =>
      simp only [scanFirst, hf0] at h
      exact ih h

/-- Any string position where the date pattern matches starts with a
digit, and the time pattern `/\d{1,2}(:\d{2})?/` matches at every digit;
hence a successful date scan forces a successful time scan. -/
theorem scanFirst_time_of_date :
    ∀ {l r : List Char}, scanFirst dateAt l = some r →
      ∃ t, scanFirst timeAt l = some t := by
  intro l
  induction l with
  | nil => intro r h; simp [scanFirst] at h
  | cons c cs ih =>
    intro r h
    cases hd : dateAt (c :: cs) with
    | some r0 =>
      obtain ⟨t, ht⟩ := timeAt_isSome_of_digit cs (dateAt_head_digit hd)
      exact ⟨t, by simp [scanFirst, ht]⟩
    | none =>
      simp only [scanFirst, hd] at h
      obtain ⟨t, ht⟩ := ih h
      cases ht0 : timeAt (c :: cs) with
      | some t0 => exact ⟨t0, by simp [scanFirst, ht0]⟩
      | none => exact ⟨t, by simp [scanFirst, ht0, ht]⟩

theorem string_mk_ne_empty {l : List Char} (h : l ≠ []) : String.mk l ≠ "" := by
  simpa [String.ext_iff] using h

/-- A successful date extraction also yields a successful (nonempty) time
extraction on the same text, and both results are JS-truthy. -/
theorem firstDateSub_time {s : String} {d : String}
    (h : firstDateSub s = some d) :
    d ≠ "" ∧ ∃ t, firstTimeSub s = some t ∧ t ≠ "" := by
  obtain ⟨d0, hd0, hmk⟩ := Option.map_eq_some'.mp h
  constructor
  · exact hmk ▸ string_mk_ne_empty (scanFirst_ne_nil dateAt_ne_nil hd0)
  · obtain ⟨t0, ht0⟩ := scanFirst_time_of_date hd0
    exact ⟨String.mk t0, by unfold firstTimeSub; rw [ht0]; rfl,
      string_mk_ne_empty (scanFirst_ne_nil timeAt_ne_nil ht0)⟩

/-! ### Claim theorems -/

/-- C6: for every inbound message, when no stored OAuth credential exists
(`loadToken()` returns `null` because the token file is absent), the whole
turn of `handleUserMessage` short-circuits with the fixed "not connected"
reply and the session is returned unchanged — in particular its stage is
not changed by that turn (`serverv3.js` lines 126-127). -/
theorem missing_token_short_circuits (cal : CalendarOutcome) (sess : Session)
    (msg : String) :
    handleUserMessage false cal sess msg = (sess, msgNotConnected) := rfl

/-- C2: for every session in stage `creating` (with all four fields
JS-truthy, the only way the try-block runs), if an exception is raised
while computing the start/end instants or creating the calendar event
(oracle `queryThrows` or `createThrows`), the stage is set to exactly
`awaiting_email` — never further back — the data is untouched, and the
reply is the generic error message (`serverv3.js` lines 242-246). -/
theorem creating_exception_reverts_to_awaiting_email (cal : CalendarOutcome)
    (sess : Session) (msg : String) (hst : sess.stage = Stage.creating)
    (hd : truthyStr sess.data.date = true) (htm : truthyStr sess.data.time = true)
    (hdu : truthyNat sess.data.duration = true) (he : truthyStr sess.data.email = true)
    (hcal : cal = CalendarOutcome.queryThrows ∨ cal = CalendarOutcome.createThrows) :
    handleUserMessage true cal sess msg =
      ({ stage := Stage.awaiting_email, data := sess.data }, msgGenericError) := by
  obtain ⟨st, data⟩ := sess
  dsimp only at hst hd htm hdu he ⊢
  subst hst
  rcases hcal with rfl | rfl <;>
    simp [handleUserMessage, phase1, phase2, hd, htm, hdu, he]

/-- C2 witness. -/
theorem creating_exception_reverts_to_awaiting_email_witness :
    handleUserMessage true CalendarOutcome.queryThrows
        ⟨Stage.creating, ⟨some "08.11.2025", some "10:00", some 30, some "a@b.com"⟩⟩ "ok" =
      ({ stage := Stage.awaiting_email,
         data := ⟨some "08.11.2025", some "10:00", some 30, some "a@b.com"⟩ },
        msgGenericError) :=
  creating_exception_reverts_to_awaiting_email _ _ "ok" rfl (by decide) (by decide)
    (by decide) (by decide) (Or.inl rfl)

/-- C3: for every session in stage `creating` with at least one of the
four fields JS-falsy, the turn emits the missing-information error and
sets the stage to the stage of the first missing field in the order
date, time, duration, email (`serverv3.js` lines 214-219); in particular
a session whose only missing field is `duration` reverts exactly to
`awaiting_duration`. -/
theorem creating_missing_field_revert (cal : CalendarOutcome) (sess : Session)
    (msg : String) (hst : sess.stage = Stage.creating)
    (hmiss : (truthyStr sess.data.date && truthyStr sess.data.time
        && truthyNat sess.data.duration && truthyStr sess.data.email) = false) :
    handleUserMessage true cal sess msg =
      ({ stage :=
          if truthyStr sess.data.date = false then Stage.awaiting_date
          else if truthyStr sess.data.time = false then Stage.awaiting_time
          else if truthyNat sess.data.duration = false then Stage.awaiting_duration
          else Stage.awaiting_email,
         data := sess.data }, msgMissingInfo) ∧
    (truthyStr sess.data.date = true → truthyStr sess.data.time = true →
      truthyNat sess.data.duration = false →
      (handleUserMessage true cal sess msg).1.stage = Stage.awaiting_duration) := by
  obtain ⟨st, data⟩ := sess
  dsimp only at hst hmiss ⊢
  subst hst
  have hmain : handleUserMessage true cal ⟨Stage.creating, data⟩ msg =
      ({ stage :=
          if truthyStr data.date = false then Stage.awaiting_date
          else if truthyStr data.time = false then Stage.awaiting_time
          else if truthyNat data.duration = false then Stage.awaiting_duration
          else Stage.awaiting_email,
         data := data }, msgMissingInfo) := by
    simp [handleUserMessage, phase1, phase2, hmiss]
  refine ⟨hmain, fun h1 h2 h3 => ?_⟩
  rw [hmain]
  simp [h1, h2, h3]

/-- C3 witness: only `duration` missing reverts exactly to
`awaiting_duration`. -/
theorem creating_missing_field_revert_witness :
    handleUserMessage true CalendarOutcome.busy
        ⟨Stage.creating, ⟨some "08.11.2025", some "10:00", none, some "a@b.com"⟩⟩ "x" =
      ({ stage := Stage.awaiting_duration,
         data := ⟨some "08.11.2025", some "10:00", none, some "a@b.com"⟩ },
        msgMissingInfo) := by
  have h := (creating_missing_field_revert CalendarOutcome.busy
    ⟨Stage.creating, ⟨some "08.11.2025", some "10:00", none, some "a@b.com"⟩⟩ "x"
    rfl (by decide)).1
  rw [h]
  decide

/-- C4: for every session in stage `creating` with all four fields
JS-truthy, when the calendar gateway reports the slot as not free the
stage becomes `awaiting_time` and the whole data record — in particular
`data.date` and `data.email` — is unchanged (`serverv3.js`
lines 227-230). -/
theorem creating_busy_preserves_data (cal : CalendarOutcome) (sess : Session)
    (msg : String) (hst : sess.stage = Stage.creating)
    (hd : truthyStr sess.data.date = true) (htm : truthyStr sess.data.time = true)
    (hdu : truthyNat sess.data.duration = true) (he : truthyStr sess.data.email = true)
    (hcal : cal = CalendarOutcome.busy) :
    handleUserMessage true cal sess msg =
      ({ stage := Stage.awaiting_time, data := sess.data }, msgBusy) := by
  obtain ⟨st, data⟩ := sess
  dsimp only at hst hd htm hdu he ⊢
  subst hst
  subst hcal
  simp [handleUserMessage, phase1, phase2, hd, htm, hdu, he]

/-- C4 witness. -/
theorem creating_busy_preserves_data_witness :
    handleUserMessage true CalendarOutcome.busy
        ⟨Stage.creating, ⟨some "08.11.2025", some "10:00", some 30, some "a@b.com"⟩⟩ "x" =
      ({ stage := Stage.awaiting_time,
         data := ⟨some "08.11.2025", some "10:00", some 30, some "a@b.com"⟩ }, msgBusy) :=
  creating_busy_preserves_data _ _ "x" rfl (by decide) (by decide) (by decide)
    (by decide) rfl

/-- C5: for every session in stage `creating` with all four fields
JS-truthy, when the gateway reports the slot free and event creation
succeeds, the session transitions to `completed` and the reply contains
the stored `data.date` and `data.time` values verbatim (`serverv3.js`
lines 231-241). -/
theorem creating_success_reply (h u : Option String) (sess : Session) (msg : String)
    (d t e : String) (n : Nat) (hst : sess.stage = Stage.creating)
    (hdv : sess.data.date = some d) (hd : d ≠ "")
    (htv : sess.data.time = some t) (ht : t ≠ "")
    (hduv : sess.data.duration = some n) (hn : n ≠ 0)
    (hev : sess.data.email = some e) (he : e ≠ "") :
    (handleUserMessage true (CalendarOutcome.created h u) sess msg).1.stage
        = Stage.completed ∧
    (∃ p q, (handleUserMessage true (CalendarOutcome.created h u) sess msg).2
        = p ++ (d ++ q)) ∧
    (∃ p q, (handleUserMessage true (CalendarOutcome.created h u) sess msg).2
        = p ++ (t ++ q)) := by
  obtain ⟨st, data⟩ := sess
  dsimp only at hst hdv htv hduv hev
  subst hst
  have hmain : handleUserMessage true (CalendarOutcome.created h u)
      ⟨Stage.creating, data⟩ msg =
      ({ stage := Stage.completed, data := data },
        msgSuccess d t e (jsOrStr h (jsOrStr u "kein Link verfügbar"))) := by
    simp [handleUserMessage, phase1, phase2, hdv, htv, hduv, hev,
      truthyStr, truthyNat, hd, ht, hn, he]
  refine ⟨by rw [hmain], ?_, ?_⟩
  · exact ⟨"✅ Termin am ",
      " um " ++ t ++ " wurde erfolgreich eingetragen.\n📧 Einladung an " ++ e
        ++ ".\n🔗 Google Meet Link: " ++ jsOrStr h (jsOrStr u "kein Link verfügbar"),
      by rw [hmain]; simp [msgSuccess, String.append_assoc]⟩
  · exact ⟨"✅ Termin am " ++ d ++ " um ",
      " wurde erfolgreich eingetragen.\n📧 Einladung an " ++ e
        ++ ".\n🔗 Google Meet Link: " ++ jsOrStr h (jsOrStr u "kein Link verfügbar"),
      by rw [hmain]; simp [msgSuccess, String.append_assoc]⟩

/-- C5 witness. -/
theorem creating_success_reply_witness :
    (handleUserMessage true (CalendarOutcome.created (some "https://meet.example/x") none)
        ⟨Stage.creating, ⟨some "08.11.2025", some "10:00", some 30, some "a@b.com"⟩⟩
        "x").1.stage = Stage.completed ∧
    (∃ p q, (handleUserMessage true
        (CalendarOutcome.created (some "https://meet.example/x") none)
        ⟨Stage.creating, ⟨some "08.11.2025", some "10:00", some 30, some "a@b.com"⟩⟩
        "x").2 = p ++ ("08.11.2025" ++ q)) ∧
    (∃ p q, (handleUserMessage true
        (CalendarOutcome.created (some "https://meet.example/x") none)
        ⟨Stage.creating, ⟨some "08.11.2025", some "10:00", some 30, some "a@b.com"⟩⟩
        "x").2 = p ++ ("10:00" ++ q)) :=
  creating_success_reply (some "https://meet.example/x") none _ "x"
    "08.11.2025" "10:00" "a@b.com" 30 rfl rfl (by decide) rfl (by decide) rfl
    (by decide) rfl (by decide)

/-- C8: for every session in stage `completed` and every inbound message,
the turn yields the static "already booked" reply and returns the session
unchanged (no data mutation); running the same turn again on the result
yields the same reply — the turn is idempotent on completed sessions
(`serverv3.js` lines 253-255). -/
theorem completed_static_idempotent (cal cal' : CalendarOutcome) (sess : Session)
    (msg : String) (hst : sess.stage = Stage.completed) :
    handleUserMessage true cal sess msg = (sess, msgAlreadyBooked) ∧
    handleUserMessage true cal' (handleUserMessage true cal sess msg).1 msg =
      ((handleUserMessage true cal sess msg).1, msgAlreadyBooked) := by
  obtain ⟨st, data⟩ := sess
  dsimp only at hst
  subst hst
  have h1 : handleUserMessage true cal ⟨Stage.completed, data⟩ msg =
      (⟨Stage.completed, data⟩, msgAlreadyBooked) := by
    simp [handleUserMessage, phase1, phase2]
  refine ⟨h1, ?_⟩
  rw [h1]
  simp [handleUserMessage, phase1, phase2]

/-- C8 witness. -/
theorem completed_static_idempotent_witness :
    handleUserMessage true CalendarOutcome.busy
        ⟨Stage.completed, ⟨some "08.11.2025", some "10:00", some 30, some "a@b.com"⟩⟩
        "noch ein termin" =
      (⟨Stage.completed, ⟨some "08.11.2025", some "10:00", some 30, some "a@b.com"⟩⟩,
        msgAlreadyBooked) :=
  (completed_static_idempotent CalendarOutcome.busy CalendarOutcome.busy
    ⟨Stage.completed, ⟨some "08.11.2025", some "10:00", some 30, some "a@b.com"⟩⟩
    "noch ein termin" rfl).1

/-- C1 counterexample: a session in `awaiting_date` fed the plain date
text `"08.11.2025"` does NOT transition to `awaiting_time` as claimed.
The combined start/awaiting_date branch of `serverv3.js` (lines 144-166)
also runs the time regex `/\d{1,2}(:\d{2})?/`, which matches the first
two digits of the date itself, so both fields become set and the session
jumps to `awaiting_duration`. -/
theorem awaiting_date_claim_counterexample :
    (handleUserMessage true CalendarOutcome.busy
        ⟨Stage.awaiting_date, ⟨none, none, none, none⟩⟩ "08.11.2025").1.stage
        = Stage.awaiting_duration ∧
    ¬ ((handleUserMessage true CalendarOutcome.busy
        ⟨Stage.awaiting_date, ⟨none, none, none, none⟩⟩ "08.11.2025").1.stage
        = Stage.awaiting_time) ∧
    (handleUserMessage true CalendarOutcome.busy
        ⟨Stage.awaiting_date, ⟨none, none, none, none⟩⟩ "08.11.2025").1.data.date
        = some "08.11.2025" ∧
    (handleUserMessage true CalendarOutcome.busy
        ⟨Stage.awaiting_date, ⟨none, none, none, none⟩⟩ "08.11.2025").1.data.time
        = some "08" := by decide

/-- C1 (amended): for every session in stage `awaiting_date`, an inbound
text whose cleaned form contains a `DD.MM.YYYY` substring stores that
exact matched substring as `data.date`, additionally stores the first
time-pattern match (a substring of digits found inside the cleaned text,
which always exists because the date contains digits) as `data.time`,
and transitions to `awaiting_duration`; a text with no such substring
(for a session whose `data.date` is not already set, the only reachable
case) leaves the stage at `awaiting_date`. -/
theorem awaiting_date_turn_amended (cal : CalendarOutcome) (sess : Session)
    (msg : String) (hst : sess.stage = Stage.awaiting_date) :
    (∀ d, firstDateSub (cleanedText msg) = some d →
      handleUserMessage true cal sess msg =
        ({ stage := Stage.awaiting_duration,
           data := { sess.data with
                     date := some d,
                     time := firstTimeSub (cleanedText msg) } }, msgAskDuration)) ∧
    (firstDateSub (cleanedText msg) = none → truthyStr sess.data.date = false →
      (handleUserMessage true cal sess msg).1.stage = Stage.awaiting_date) := by
  obtain ⟨st, data⟩ := sess
  dsimp only at hst ⊢
  subst hst
  constructor
  · intro d hd
    obtain ⟨hdne, t, ht, htne⟩ := firstDateSub_time hd
    simp [handleUserMessage, phase1, phase2, hd, ht, truthyStr, hdne, htne]
  · intro hd hdt
    simp [handleUserMessage, phase1, phase2, hd, hdt]

/-- C1 witness: the amended behaviour at the concrete inputs
`"Termin am 08.11.2025"` (date present) and `"kein Datum"` (no date). -/
theorem awaiting_date_turn_amended_witness :
    handleUserMessage true CalendarOutcome.busy
        ⟨Stage.awaiting_date, ⟨none, none, none, none⟩⟩ "Termin am 08.11.2025" =
      ({ stage := Stage.awaiting_duration,
         data := { date := some "08.11.2025", time := some "08",
                   duration := none, email := none } }, msgAskDuration) ∧
    (handleUserMessage true CalendarOutcome.busy
        ⟨Stage.awaiting_date, ⟨none, none, none, none⟩⟩ "kein Datum").1.stage
      = Stage.awaiting_date := by
  constructor
  · have h := (awaiting_date_turn_amended CalendarOutcome.busy
      ⟨Stage.awaiting_date, ⟨none, none, none, none⟩⟩ "Termin am 08.11.2025" rfl).1
      "08.11.2025" (by decide)
    rw [h]
    decide
  · exact (awaiting_date_turn_amended CalendarOutcome.busy
      ⟨Stage.awaiting_date, ⟨none, none, none, none⟩⟩ "kein Datum" rfl).2
      (by decide) (by decide)

/-- C7 counterexample: the claim's own example fails — the code does not
drop the leading trunk `0`, so `"0170 1234567"` with default country code
`"+49"` yields `"+4901701234567"`, not `"+491701234567"`; and an input
beginning with `+` is first trimmed, so `"+1 "` is not returned
unchanged. -/
theorem normalizePhone_claim_counterexample :
    normalizePhone "+49" "0170 1234567" = "+4901701234567" ∧
    ¬ (normalizePhone "+49" "0170 1234567" = "+491701234567") ∧
    ¬ (normalizePhone "+49" "+1 " = "+1 ") := by decide

theorem filter_dropWhile_of_excl {q pws : Char → Bool}
    (h : ∀ c, pws c = true → q c = false) :
    ∀ l : List Char, (l.dropWhile pws).filter q = l.filter q := by
  intro l
  induction l with
  | nil => rfl
  | cons c cs ih =>
    by_cases hc : pws c = true
    · simp [List.dropWhile_cons, hc, ih, List.filter_cons, h c hc]
    · simp [List.dropWhile_cons, hc]

theorem whitespace_not_digit : ∀ c : Char, c.isWhitespace = true → c.isDigit = false := by
  intro c hc
  have hch : c = ' ' ∨ c = '\t' ∨ c = '\r' ∨ c = '\n' := by
    simpa [Char.isWhitespace, or_assoc] using hc
  rcases hch with h | h | h | h <;> subst h <;> decide

/-- Trimming removes only whitespace, hence does not change the digits of
a string. -/
theorem jsTrim_filter_digit (p : String) :
    (jsTrim p).data.filter Char.isDigit = p.data.filter Char.isDigit := by
  show ((((p.data.dropWhile Char.isWhitespace).reverse.dropWhile
      Char.isWhitespace).reverse).filter Char.isDigit) = _
  rw [List.filter_reverse, filter_dropWhile_of_excl whitespace_not_digit,
    List.filter_reverse, List.reverse_reverse,
    filter_dropWhile_of_excl whitespace_not_digit]

/-- C7 (amended): for every nonempty input phone string, if the input
with surrounding whitespace removed begins with `'+'`, `normalizePhone`
returns that trimmed string (so an input beginning with `'+'` and
carrying no surrounding whitespace is returned unchanged); otherwise it
returns the configured default country-code prefix followed by the input
with every non-digit character removed (keeping any leading `0`).  The
empty input is returned unchanged (see the separate token guard in the
source: `if (!phone) return phone`). -/
theorem normalizePhone_amended (dc p : String) (hp : p ≠ "") :
    ((jsTrim p).toList.head? = some '+' → normalizePhone dc p = jsTrim p) ∧
    ((jsTrim p).toList.head? ≠ some '+' →
      normalizePhone dc p = dc ++ String.mk (p.toList.filter Char.isDigit)) := by
  constructor
  · intro hplus
    simp only [String.toList] at hplus
    simp [normalizePhone, hp, hplus]
  · intro hplus
    simp only [String.toList] at hplus
    simp [normalizePhone, hp, hplus, jsTrim_filter_digit p]

/-- C7 witness: the amended rule at the claim's example input and at a
`+`-input with no surrounding whitespace. -/
theorem normalizePhone_amended_witness :
    normalizePhone "+49" "0170 1234567" = "+49" ++ String.mk
      ("0170 1234567".toList.filter Char.isDigit) ∧
    normalizePhone "+49" "+15551234" = "+15551234" := by
  constructor
  · exact (normalizePhone_amended "+49" "0170 1234567" (by decide)).2 (by decide)
  · have h := (normalizePhone_amended "+49" "+15551234" (by decide)).1 (by decide)
    rw [h]
    decide

/-- The second chain (`creating` / `completed` handling) never modifies
the data record: every branch either keeps the session or changes only
its stage. -/
theorem phase2_data (cal : CalendarOutcome) (sr : Session × String) :
    (phase2 cal sr).1.data = sr.1.data := by
  unfold phase2
  split
  · split
    · rfl
    · cases cal <;> rfl
  · split
    · rfl
    · rfl

/-- Sessions whose stage after the first chain is neither `creating` nor
`completed` pass through the second chain untouched. -/
theorem phase2_passthrough (cal : CalendarOutcome) (sr : Session × String)
    (h1 : sr.1.stage ≠ Stage.creating) (h2 : sr.1.stage ≠ Stage.completed) :
    phase2 cal sr = sr := by
  simp [phase2, h1, h2]

/-- The first chain only ever adds or overwrites data fields: a field
that is set after `phase1` ran was either set before or was just written.
Contrapositive form: a field that is absent afterwards was absent
before. -/
theorem phase1_data_mono (sess : Session) (c l : String) :
    ((phase1 sess c l).1.data.date = none → sess.data.date = none) ∧
    ((phase1 sess c l).1.data.time = none → sess.data.time = none) ∧
    ((phase1 sess c l).1.data.duration = none → sess.data.duration = none) ∧
    ((phase1 sess c l).1.data.email = none → sess.data.email = none) := by
  obtain ⟨st, data⟩ := sess
  cases st <;>
    simp only [phase1] <;>
    (repeat' split) <;>
    simp_all

/-- After the first chain, a session in stage `creating` has its
`duration` unchanged (the only branch producing `creating` is the
`awaiting_email` one, which writes only `email`), and a session in stage
`completed` was already completed on entry. -/
theorem phase1_stage_analysis (sess : Session) (c l : String) :
    ((phase1 sess c l).1.stage = Stage.creating →
      (phase1 sess c l).1.data.duration = sess.data.duration) ∧
    ((phase1 sess c l).1.stage = Stage.completed → sess.stage = Stage.completed) := by
  obtain ⟨st, data⟩ := sess
  cases st <;>
    simp only [phase1] <;>
    (repeat' split) <;>
    simp_all

/-- If the session reaching the second chain has a JS-falsy `duration`
and is not already completed, the turn cannot end in `completed`: the
all-fields check fails, so the event-creation branch is unreachable. -/
theorem phase2_stage_ne_completed_of_duration_falsy (cal : CalendarOutcome)
    (sr : Session × String) (hdur : truthyNat sr.1.data.duration = false)
    (hst : sr.1.stage ≠ Stage.completed) :
    (phase2 cal sr).1.stage ≠ Stage.completed := by
  unfold phase2
  split
  · split
    · dsimp only
      (repeat' split) <;> simp
    · rename_i hcond
      exfalso
      apply hcond
      simp [hdur]
  · split
    · exact hst
    · exact hst

/-- C9: fields of a session's data record are only ever added or
overwritten, never removed — any key present before a turn of
`handleUserMessage` is still present after it, for every stage, token
state, calendar outcome and input (`serverv3.js` lines 125-264 assign
`session.data.*` but never delete). -/
theorem data_fields_never_removed (tok : Bool) (cal : CalendarOutcome)
    (sess : Session) (msg : String) :
    ((handleUserMessage tok cal sess msg).1.data.date = none →
      sess.data.date = none) ∧
    ((handleUserMessage tok cal sess msg).1.data.time = none →
      sess.data.time = none) ∧
    ((handleUserMessage tok cal sess msg).1.data.duration = none →
      sess.data.duration = none) ∧
    ((handleUserMessage tok cal sess msg).1.data.email = none →
      sess.data.email = none) := by
  cases tok with
  | false => simp [handleUserMessage]
  | true =>
    have h2 := phase2_data cal (phase1 sess (cleanedText msg) (lowerStr (cleanedText msg)))
    have h1 := phase1_data_mono sess (cleanedText msg) (lowerStr (cleanedText msg))
    simpa [handleUserMessage, h2] using h1

/-- C9 witness: a turn on a fresh session leaves absent fields absent
(the theorem applied at a concrete session and message). -/
theorem data_fields_never_removed_witness :
    (⟨Stage.start, ⟨none, none, none, none⟩⟩ : Session).data.date = none ∧
    (⟨Stage.start, ⟨none, none, none, none⟩⟩ : Session).data.email = none :=
  ⟨(data_fields_never_removed true CalendarOutcome.busy
      ⟨Stage.start, ⟨none, none, none, none⟩⟩ "hallo").1 (by decide),
   (data_fields_never_removed true CalendarOutcome.busy
      ⟨Stage.start, ⟨none, none, none, none⟩⟩ "hallo").2.2.2 (by decide)⟩

/-- C10: a session in `awaiting_duration` fed a text whose first integer
substring is `"0"` stores duration `0` and advances to `awaiting_email`
(`serverv3.js` lines 186-194); on a later `creating` turn the
missing-field check treats duration `0` as missing (JS falsy check,
line 217) and reverts to `awaiting_duration`; consequently no turn of a
session carrying duration `0` can end in stage `completed`. -/
theorem duration_zero_never_completes (cal cal' : CalendarOutcome)
    (sess : Session) (msg msg' : String)
    (h1 : sess.stage = Stage.awaiting_duration)
    (h2 : firstNumSub (cleanedText msg) = some "0") :
    handleUserMessage true cal sess msg =
      ({ stage := Stage.awaiting_email,
         data := { sess.data with duration := some 0 } }, msgAskEmail) ∧
    (∀ s2 : Session, s2.stage = Stage.creating → s2.data.duration = some 0 →
      truthyStr s2.data.date = true → truthyStr s2.data.time = true →
      truthyStr s2.data.email = true →
      handleUserMessage true cal' s2 msg' =
        ({ stage := Stage.awaiting_duration, data := s2.data }, msgMissingInfo)) ∧
    (∀ s2 : Session, s2.data.duration = some 0 → s2.stage ≠ Stage.completed →
      (handleUserMessage true cal' s2 msg').1.stage ≠ Stage.completed) := by
  have hz : jsParseInt "0" = 0 := by decide
  refine ⟨?_, ?_, ?_⟩
  · obtain ⟨st, data⟩ := sess
    dsimp only at h1 ⊢
    subst h1
    simp [handleUserMessage, phase1, phase2, h2, hz]
  · intro s2 hst hdur hd ht he
    obtain ⟨st, data⟩ := s2
    dsimp only at hst hdur hd ht he ⊢
    subst hst
    simp [handleUserMessage, phase1, phase2, hdur, hd, ht, he, truthyNat]
  · intro s2 hdur hstn
    have ha := phase1_stage_analysis s2 (cleanedText msg') (lowerStr (cleanedText msg'))
    by_cases hc : (phase1 s2 (cleanedText msg') (lowerStr (cleanedText msg'))).1.stage
        = Stage.creating
    · have hdur2 : truthyNat (phase1 s2 (cleanedText msg')
          (lowerStr (cleanedText msg'))).1.data.duration = false := by
        rw [ha.1 hc, hdur]
        rfl
      have hne : (phase1 s2 (cleanedText msg')
          (lowerStr (cleanedText msg'))).1.stage ≠ Stage.completed := by
        rw [hc]
        simp
      have hfin := phase2_stage_ne_completed_of_duration_falsy cal' _ hdur2 hne
      simpa [handleUserMessage] using hfin
    · by_cases hcomp : (phase1 s2 (cleanedText msg')
          (lowerStr (cleanedText msg'))).1.stage = Stage.completed
      · exact absurd (ha.2 hcomp) hstn
      · have hpass := phase2_passthrough cal' _ hc hcomp
        simpa [handleUserMessage, hpass] using hcomp

/-- C10 witness: a concrete `awaiting_duration` session fed `"0"`, then
the resulting data on a `creating` turn. -/
theorem duration_zero_never_completes_witness :
    handleUserMessage true CalendarOutcome.busy
        ⟨Stage.awaiting_duration, ⟨some "08.11.2025", some "10:00", none, none⟩⟩ "0" =
      ({ stage := Stage.awaiting_email,
         data := { date := some "08.11.2025", time := some "10:00",
                   duration := some 0, email := none } }, msgAskEmail) ∧
    handleUserMessage true CalendarOutcome.busy
        ⟨Stage.creating, ⟨some "08.11.2025", some "10:00", some 0, some "a@b.com"⟩⟩ "x" =
      ({ stage := Stage.awaiting_duration,
         data := ⟨some "08.11.2025", some "10:00", some 0, some "a@b.com"⟩ },
        msgMissingInfo) := by
  have h := duration_zero_never_completes CalendarOutcome.busy CalendarOutcome.busy
    ⟨Stage.awaiting_duration, ⟨some "08.11.2025", some "10:00", none, none⟩⟩ "0" "x"
    rfl (by decide)
  exact ⟨h.1, h.2.1 ⟨Stage.creating, ⟨some "08.11.2025", some "10:00", some 0, some "a@b.com"⟩⟩
    rfl rfl (by decide) (by decide) (by decide)⟩

end SmsBot

